import Mathlib

/-!
Verification development for the Passwords-manager server core.

The repository ships two interchangeable backends:
* a file-backed Node HTTP server (one users.json store, one vault file per
  user, an in-memory session map), and
* a relational Vercel serverless handler (a users table and a
  password_entries table in PostgreSQL, the same in-memory session map).

Both are embedded below as pure step functions on explicit state.  Machine
randomness (crypto.randomBytes for salts and tokens, crypto.randomUUID /
gen_random_uuid for entry ids) is modelled by a deterministic counter drawn
from the state, timestamps by a `now : Nat` argument supplied with each
request, and crypto.pbkdf2Sync by an abstract hash-function parameter.
-/

namespace PM

/-- Abstraction of crypto.pbkdf2Sync(password, salt, iterations, 32, sha256)
followed by hex encoding: a function of the password, the (counter-modelled)
salt and the iteration count.  Both backends call it through hashPassword,
and verifyPassword compares two of its outputs with timingSafeEqual, which
on the equal-length hex digests is plain equality. -/
abbrev HashFn := String → Nat → Nat → String

/-- A record of users.json / a row of the users table: salt, hash,
iterations, creation time. -/
structure UserRec where
  salt : Nat
  hash : String
  iterations : Nat
  createdAt : Nat
deriving Repr, DecidableEq

/-- A value of the in-memory sessions map: owning username and absolute
expiry instant. -/
structure Session where
  username : String
  expires : Nat
deriving Repr, DecidableEq

/-- A vault entry / password_entries row.  `category` is a field only the
file backend ever writes (through the PUT object-spread merge and the
category deletion handler); the relational table has no such column, so
relational rows always carry `none` there.  JSON.stringify drops undefined
object values, so `none` on an optional field matches an absent key in the
serialized response body. -/
structure Entry where
  id : Nat
  url : String
  username : String
  owner : String
  tags : List String
  note : Option String
  passwordEncrypted : String
  faviconUrl : Option String
  category : Option String
  createdAt : Nat
  updatedAt : Nat
deriving Repr, DecidableEq

/-- Body of POST /api/entries.  The handlers test the three required fields
with JavaScript truthiness (`!siteUrl` and so on), under which a missing
field and an empty string behave identically, so absent strings are
modelled as "".  `tags` defaults to [] by destructuring, and a non-array
value is replaced by [] before storage, so it is modelled as a list. -/
structure AddBody where
  url : String
  username : String
  owner : String
  tags : List String
  note : Option String
  passwordEncrypted : String
  faviconUrl : Option String
deriving Repr, DecidableEq

/-- Body of PUT /api/entries/:id; `some` marks a key present in the JSON
payload.  `updatedAt` is omitted because both handlers overwrite it after
their merge, so a payload value never survives. -/
structure UpdatePayload where
  id : Option Nat := none
  url : Option String := none
  username : Option String := none
  owner : Option String := none
  tags : Option (List String) := none
  note : Option String := none
  passwordEncrypted : Option String := none
  faviconUrl : Option String := none
  category : Option String := none
  createdAt : Option Nat := none
deriving Repr, DecidableEq

/-- Observable JSON response bodies, one constructor per shape the handlers
emit through sendJson. -/
inductive Body where
  | err (msg : String)
  | okTrue
  | loginOk (token : Nat) (username : String)
  | me (username : String)
  | entries (es : List Entry)
  | entry (e : Entry)
  | categories (cs : List String)
  | category (c : String)
  | exported (version : Nat) (username : String) (exportedAt : Nat) (es : List Entry)
deriving Repr, DecidableEq

/-- An observable HTTP response: status code and JSON body. -/
abbrev Response := Nat × Body

/-- The API requests the core serves (HTTP routing itself is an external
collaborator).  The token is the parsed bearer token, `none` when the
Authorization header is missing or malformed. -/
inductive Req where
  | register (username password : String)
  | login (username password : String)
  | me (token : Option Nat)
  | listEntries (token : Option Nat)
  | addEntry (token : Option Nat) (body : AddBody)
  | updateEntry (token : Option Nat) (id : Nat) (body : UpdatePayload)
  | deleteEntry (token : Option Nat) (id : Nat)
  | listCategories (token : Option Nat)
  | addCategory (token : Option Nat) (category : Option String)
  | deleteCategory (token : Option Nat) (name : String)
  | exportAll (token : Option Nat)
deriving Repr, DecidableEq

/-- Association-list lookup, modelling JSON-object indexing, Map.get and
single-row SELECT by key. -/
def lookupA {κ α : Type} [DecidableEq κ] : List (κ × α) → κ → Option α
  | [], _ => none
  | (k', v) :: t, k => if k' = k then some v else lookupA t k

/-- Association-list update, modelling JSON-object assignment and Map.set:
replace the binding if the key is present, append it otherwise. -/
def setA {κ α : Type} [DecidableEq κ] : List (κ × α) → κ → α → List (κ × α)
  | [], k, v => [(k, v)]
  | (k', v') :: t, k, v => if k' = k then (k, v) :: t else (k', v') :: setA t k v

/-- Character class of the username rule, the regex being
anchored [a-zA-Z0-9._-]{3,32}. -/
def isUserChar (c : Char) : Bool :=
  c.isAlphanum || c == '.' || c == '_' || c == '-'

/-- isValidUser from both servers. -/
def isValidUser (u : String) : Bool :=
  decide (3 ≤ u.length) && decide (u.length ≤ 32) && u.toList.all isUserChar

/-- isValidPassword from both servers: length at least 6. -/
def isValidPassword (p : String) : Bool :=
  decide (6 ≤ p.length)

/-- TOKEN_TTL_MS = 24 * 60 * 60 * 1000 in both servers. -/
def TOKEN_TTL_MS : Nat := 24 * 60 * 60 * 1000

/-- The Object.prototype property names that are also valid usernames.  The
file backend indexes the JSON.parse users object directly (users[username])
and JavaScript property reads walk the prototype chain, so each of these
names reads as a truthy inherited value even when no such user was ever
registered.  The relational backend is unaffected: its lookups are SQL
queries against the users table. -/
def protoProps : List String :=
  ["constructor", "hasOwnProperty", "isPrototypeOf", "propertyIsEnumerable",
   "toLocaleString", "toString", "valueOf", "__proto__", "__defineGetter__",
   "__defineSetter__", "__lookupGetter__", "__lookupSetter__"]

/-- The possible truthy results of the file backend's users[username] read:
an own binding holding a stored user record, or a value inherited from
Object.prototype (a built-in function, or the prototype object itself for
__proto__), which is truthy but not a user record. -/
inductive JsVal where
  | stored (r : UserRec)
  | proto
deriving Repr, DecidableEq

/-- The JavaScript property read users[username] on the JSON.parse users
object: an own binding shadows the prototype; otherwise a name of an
Object.prototype property reads as that inherited value, and every other
name reads as undefined. -/
def jsGet (l : List (String × UserRec)) (u : String) : Option JsVal :=
  match lookupA l u with
  | some r => some (.stored r)
  | none => if u ∈ protoProps then some .proto else none

/-- getAuth, identical in both servers: resolve the bearer token against the
session map at time `now`.  A session found but past expiry is deleted on
this very access (lazy cleanup) and the resolution fails.  Returns the
resolved username, if any, together with the possibly shrunk session map. -/
def getAuth (sessions : List (Nat × Session)) (token : Option Nat) (now : Nat) :
    Option String × List (Nat × Session) :=
  match token with
  | none => (none, sessions)
  | some t =>
    match lookupA sessions t with
    | none => (none, sessions)
    | some s =>
      if s.expires < now then
        (none, sessions.filter (fun p => decide (p.1 ≠ t)))
      else (some s.username, sessions)

/-- Helper for first-occurrence deduplication, carrying the set of values
already emitted. -/
def dedupAux (seen : List String) : List String → List String
  | [] => []
  | x :: t => if x ∈ seen then dedupAux seen t else x :: dedupAux (x :: seen) t

/-- JavaScript spread of a Set (and SQL DISTINCT, whose result order is
unspecified and resolved here to first occurrences): keep the first
occurrence of every value, in order. -/
def dedupF (l : List String) : List String := dedupAux [] l

/-- The object-spread merge of the file backend PUT handler,
writing updated = spread of e then updates then a fresh updatedAt:
every key present in the payload overwrites the stored field, whatever its
value, and updatedAt is overwritten last. -/
def spreadMerge (e : Entry) (u : UpdatePayload) (now : Nat) : Entry where
  id := u.id.getD e.id
  url := u.url.getD e.url
  username := u.username.getD e.username
  owner := u.owner.getD e.owner
  tags := u.tags.getD e.tags
  note := match u.note with | some s => some s | none => e.note
  passwordEncrypted := u.passwordEncrypted.getD e.passwordEncrypted
  faviconUrl := match u.faviconUrl with | some s => some s | none => e.faviconUrl
  category := match u.category with | some s => some s | none => e.category
  createdAt := u.createdAt.getD e.createdAt
  updatedAt := now

/-- One column of the relational PUT handler merge: the SET clause for a
text column is added only when the payload field is truthy, i.e. present
and a non-empty string. -/
def mergeStr (old : String) (upd : Option String) : String :=
  match upd with
  | some s => if s = "" then old else s
  | none => old

/-- Same as mergeStr for a nullable text column. -/
def mergeOptStr (old : Option String) (upd : Option String) : Option String :=
  match upd with
  | some s => if s = "" then old else some s
  | none => old

/-- The relational PUT handler merge: SET clauses are pushed only for truthy
payload fields (a present array is always truthy, so tags merges whenever
present), the id, owner, createdAt and category columns have no SET clause at
all, and updated_at = CURRENT_TIMESTAMP is always pushed. -/
def truthyMerge (e : Entry) (u : UpdatePayload) (now : Nat) : Entry :=
  { e with
    url := mergeStr e.url u.url
    username := mergeStr e.username u.username
    passwordEncrypted := mergeStr e.passwordEncrypted u.passwordEncrypted
    faviconUrl := mergeOptStr e.faviconUrl u.faviconUrl
    note := mergeOptStr e.note u.note
    tags := u.tags.getD e.tags
    updatedAt := now }

/-! ## The file-backed server -/

/-- State of the file-backed server: users.json as an association list, one
vault file per username, the in-memory session map, and the deterministic
generator counter standing for the crypto random draws.  ensureUserVault
only ever writes an empty array into a missing vault file and loadEntries
reads a missing file as [], so vault-file creation needs no transition of
its own: a username absent from `vaults` reads as the empty vault. -/
structure FileState where
  users : List (String × UserRec)
  vaults : List (String × List Entry)
  sessions : List (Nat × Session)
  ctr : Nat
deriving Repr, DecidableEq

/-- The server right after ensureDirs: empty users.json, no vault files, an
empty session map. -/
def FileState.init : FileState := ⟨[], [], [], 0⟩

/-- loadEntries: parse the owner's vault file, [] when missing. -/
def loadEntries (st : FileState) (u : String) : List Entry :=
  (lookupA st.vaults u).getD []

/-- saveEntries: overwrite the owner's vault file. -/
def saveEntries (st : FileState) (u : String) (es : List Entry) : FileState :=
  { st with vaults := setA st.vaults u es }

/-- POST /api/register, file backend: validate, then test users[username]
for truthiness — which rejects with 409 both a registered username and an
unregistered one naming an Object.prototype property — otherwise derive
the hash from a fresh salt and persist the record (the assignment
users[username] = record creates an own binding). -/
def fileRegister (H : HashFn) (now : Nat) (st : FileState) (username password : String) :
    Response × FileState :=
  if !(isValidUser username && isValidPassword password) then
    ((400, .err "Invalid username or password"), st)
  else match jsGet st.users username with
    | some _ => ((409, .err "User exists"), st)
    | none =>
      let salt := st.ctr
      let urec : UserRec := ⟨salt, H password salt 120000, 120000, now⟩
      ((201, .okTrue),
        { st with users := setA st.users username urec, ctr := st.ctr + 1 })

/-- POST /api/login, file backend: a falsy users[username] answers 401, as
does a failed hash comparison, with the same body; an unregistered username
naming an Object.prototype property reads a truthy inherited value instead,
so verifyPassword calls pbkdf2Sync with an undefined salt, which throws and
reaches the route's catch-all as 500 Server error; success stores a fresh
session expiring TOKEN_TTL_MS from now. -/
def fileLogin (H : HashFn) (now : Nat) (st : FileState) (username password : String) :
    Response × FileState :=
  match jsGet st.users username with
  | none => ((401, .err "Invalid credentials"), st)
  | some .proto => ((500, .err "Server error"), st)
  | some (.stored urec) =>
    if H password urec.salt urec.iterations = urec.hash then
      let token := st.ctr
      ((200, .loginOk token username),
        { st with
            sessions := setA st.sessions token ⟨username, now + TOKEN_TTL_MS⟩,
            ctr := st.ctr + 1 })
    else ((401, .err "Invalid credentials"), st)

/-- GET /api/me after authentication. -/
def fileMeH (st : FileState) (auth : String) : Response × FileState :=
  ((200, .me auth), st)

/-- GET /api/entries after authentication: the authenticated user's vault
file, verbatim. -/
def fileListEntriesH (st : FileState) (auth : String) : Response × FileState :=
  ((200, .entries (loadEntries st auth)), st)

/-- GET /api/categories after authentication, file backend: the distinct
truthy values of the `category` field of the user's entries (the `tags`
field is not consulted). -/
def fileListCategoriesH (st : FileState) (auth : String) : Response × FileState :=
  let entries := loadEntries st auth
  ((200, .categories
      (dedupF (((entries.map (fun e => e.category)).filterMap id).filter
        (fun c => decide (c ≠ ""))))), st)

/-- POST /api/categories after authentication, file backend: validate the
name; the handler's read of the existing entries computes a list it never
uses, so the request has no persistent effect. -/
def fileAddCategoryH (st : FileState) (_auth : String) (category : Option String) :
    Response × FileState :=
  match category with
  | none => ((400, .err "Invalid category"), st)
  | some c =>
    if c.trim = "" then ((400, .err "Invalid category"), st)
    else ((201, .category c), st)

/-- DELETE /api/categories/:name after authentication, file backend: every
entry of the user's vault whose `category` field equals the name has that
field cleared and its updatedAt refreshed; `tags` is untouched. -/
def fileDeleteCategoryH (st : FileState) (auth : String) (name : String) (now : Nat) :
    Response × FileState :=
  let entries := loadEntries st auth
  let next := entries.map (fun e =>
    if e.category = some name then { e with category := none, updatedAt := now } else e)
  ((200, .okTrue), saveEntries st auth next)

/-- POST /api/entries after authentication, file backend: validate the
required fields, then prepend the new entry, whose owner is the
body-supplied owner when truthy and the authenticated username otherwise,
to the authenticated user's vault file. -/
def fileAddEntryH (st : FileState) (auth : String) (b : AddBody) (now : Nat) :
    Response × FileState :=
  if b.url = "" || b.username = "" || b.passwordEncrypted = "" then
    ((400, .err "Missing fields"), st)
  else
    let entries := loadEntries st auth
    let entry : Entry :=
      { id := st.ctr, url := b.url, username := b.username,
        owner := if b.owner = "" then auth else b.owner,
        tags := b.tags, note := b.note, passwordEncrypted := b.passwordEncrypted,
        faviconUrl := b.faviconUrl, category := none,
        createdAt := now, updatedAt := now }
    ((201, .entry entry),
      { saveEntries st auth (entry :: entries) with ctr := st.ctr + 1 })

/-- PUT /api/entries/:id after authentication, file backend: map over the
user's vault, spread-merging the payload into every entry whose id matches
(the handler's `updated` variable ends as the merge of the last match); the
vault file is rewritten even when nothing matched. -/
def fileUpdateEntryH (st : FileState) (auth : String) (id : Nat) (u : UpdatePayload)
    (now : Nat) : Response × FileState :=
  let entries := loadEntries st auth
  let next := entries.map (fun e => if e.id = id then spreadMerge e u now else e)
  let st' := saveEntries st auth next
  match (entries.filter (fun e => decide (e.id = id))).getLast? with
  | some e => ((200, .entry (spreadMerge e u now)), st')
  | none => ((404, .err "Not found"), st')

/-- DELETE /api/entries/:id after authentication, file backend: filter the
id out of the user's vault; 404 exactly when the length did not change. -/
def fileDeleteEntryH (st : FileState) (auth : String) (id : Nat) :
    Response × FileState :=
  let entries := loadEntries st auth
  let next := entries.filter (fun e => decide (e.id ≠ id))
  let st' := saveEntries st auth next
  if next.length ≠ entries.length then ((200, .okTrue), st')
  else ((404, .err "Not found"), st')

/-- GET /api/export after authentication, file backend. -/
def fileExportH (st : FileState) (auth : String) (now : Nat) : Response × FileState :=
  ((200, .exported 1 auth now (loadEntries st auth)), st)

/-- Wrapper shared by every authenticated route of the file server: run
getAuth (which may evict an expired session even on the failing path),
answer 401 Unauthorized when resolution fails, delegate otherwise. -/
def FileState.withAuth (st : FileState) (tok : Option Nat) (now : Nat)
    (h : FileState → String → Response × FileState) : Response × FileState :=
  match getAuth st.sessions tok now with
  | (none, ss) => ((401, .err "Unauthorized"), { st with sessions := ss })
  | (some u, ss) => h { st with sessions := ss } u

/-- One request against the file-backed server. -/
def fileStep (H : HashFn) (now : Nat) (st : FileState) : Req → Response × FileState
  | .register u p => fileRegister H now st u p
  | .login u p => fileLogin H now st u p
  | .me tok => st.withAuth tok now fun s a => fileMeH s a
  | .listEntries tok => st.withAuth tok now fun s a => fileListEntriesH s a
  | .addEntry tok b => st.withAuth tok now fun s a => fileAddEntryH s a b now
  | .updateEntry tok id u => st.withAuth tok now fun s a => fileUpdateEntryH s a id u now
  | .deleteEntry tok id => st.withAuth tok now fun s a => fileDeleteEntryH s a id
  | .listCategories tok => st.withAuth tok now fun s a => fileListCategoriesH s a
  | .addCategory tok c => st.withAuth tok now fun s a => fileAddCategoryH s a c
  | .deleteCategory tok n => st.withAuth tok now fun s a => fileDeleteCategoryH s a n now
  | .exportAll tok => st.withAuth tok now fun s a => fileExportH s a now

/-- Run a timed request sequence against the file-backed server, collecting
the observable responses. -/
def fileRun (H : HashFn) : List (Nat × Req) → FileState → List Response × FileState
  | [], st => ([], st)
  | (now, q) :: t, st =>
    let s := fileStep H now st q
    let r := fileRun H t s.2
    (s.1 :: r.1, r.2)

/-! ## The relational server -/

/-- State of the relational serverless handler: the users table keyed by its
username primary key, the password_entries table as a row list in insertion
order, the in-memory session map, and the generator counter.  The database
pool is assumed configured (a missing connection string only produces
500 responses on every route and carries no vault semantics). -/
structure RelState where
  users : List (String × UserRec)
  rows : List Entry
  sessions : List (Nat × Session)
  ctr : Nat
deriving Repr, DecidableEq

/-- The handler against a freshly initialized (empty) database. -/
def RelState.init : RelState := ⟨[], [], [], 0⟩

/-- SELECT ... FROM password_entries WHERE owner = the given user, in
insertion order. -/
def relRowsOf (st : RelState) (owner : String) : List Entry :=
  st.rows.filter (fun r => decide (r.owner = owner))

/-- POST /api/register, relational: SELECT 1 FROM users WHERE username,
409 when a row exists, otherwise INSERT the freshly salted record. -/
def relRegister (H : HashFn) (now : Nat) (st : RelState) (username password : String) :
    Response × RelState :=
  if !(isValidUser username && isValidPassword password) then
    ((400, .err "Invalid username or password"), st)
  else match lookupA st.users username with
    | some _ => ((409, .err "User exists"), st)
    | none =>
      let salt := st.ctr
      ((201, .okTrue),
        { st with
            users := st.users ++ [(username, ⟨salt, H password salt 120000, 120000, now⟩)],
            ctr := st.ctr + 1 })

/-- POST /api/login, relational: same observable behaviour as the file
backend, against the users table. -/
def relLogin (H : HashFn) (now : Nat) (st : RelState) (username password : String) :
    Response × RelState :=
  match lookupA st.users username with
  | none => ((401, .err "Invalid credentials"), st)
  | some urec =>
    if H password urec.salt urec.iterations = urec.hash then
      let token := st.ctr
      ((200, .loginOk token username),
        { st with
            sessions := setA st.sessions token ⟨username, now + TOKEN_TTL_MS⟩,
            ctr := st.ctr + 1 })
    else ((401, .err "Invalid credentials"), st)

/-- GET /api/me after authentication. -/
def relMeH (st : RelState) (auth : String) : Response × RelState :=
  ((200, .me auth), st)

/-- GET /api/entries after authentication, relational: the user's rows,
ORDER BY created_at DESC.  Rows are kept in insertion order and created_at
is assigned at insertion, so on states whose timestamps increase along
insertions the descending order is the reverse of the owner-filtered list;
SQL leaves the order of equal timestamps unspecified, and the model
resolves such ties by recency of insertion. -/
def relListEntriesH (st : RelState) (auth : String) : Response × RelState :=
  ((200, .entries (relRowsOf st auth).reverse), st)

/-- POST /api/entries after authentication, relational: validate the
required fields, INSERT the row (owner column as in the file backend), and
echo the entry built from the body and the RETURNING values. -/
def relAddEntryH (st : RelState) (auth : String) (b : AddBody) (now : Nat) :
    Response × RelState :=
  if b.url = "" || b.username = "" || b.passwordEncrypted = "" then
    ((400, .err "Missing fields"), st)
  else
    let row : Entry :=
      { id := st.ctr, url := b.url, username := b.username,
        owner := if b.owner = "" then auth else b.owner,
        tags := b.tags, note := b.note, passwordEncrypted := b.passwordEncrypted,
        faviconUrl := b.faviconUrl, category := none,
        createdAt := now, updatedAt := now }
    ((201, .entry row), { st with rows := st.rows ++ [row], ctr := st.ctr + 1 })

/-- PUT /api/entries/:id after authentication, relational: UPDATE ... WHERE
id AND owner with the truthy-field SET list; 404 when RETURNING produced no
row.  The handler's guard for an empty SET list is unreachable because
updated_at is always pushed. -/
def relUpdateEntryH (st : RelState) (auth : String) (id : Nat) (u : UpdatePayload)
    (now : Nat) : Response × RelState :=
  let rows' := st.rows.map (fun r =>
    if r.id = id ∧ r.owner = auth then truthyMerge r u now else r)
  match st.rows.find? (fun r => decide (r.id = id ∧ r.owner = auth)) with
  | some r => ((200, .entry (truthyMerge r u now)), { st with rows := rows' })
  | none => ((404, .err "Not found"), { st with rows := rows' })

/-- DELETE /api/entries/:id after authentication, relational: DELETE ...
WHERE id AND owner; 404 exactly when rowCount is zero. -/
def relDeleteEntryH (st : RelState) (auth : String) (id : Nat) :
    Response × RelState :=
  let rows' := st.rows.filter (fun r => !(decide (r.id = id ∧ r.owner = auth)))
  if rows'.length ≠ st.rows.length then ((200, .okTrue), { st with rows := rows' })
  else ((404, .err "Not found"), { st with rows := rows' })

/-- GET /api/categories after authentication, relational: SELECT DISTINCT
UNNEST(tags) over the user's rows (the non-null and non-empty-array WHERE
clauses only drop rows that contribute no elements), then the JS
filter(Boolean) drops empty strings. -/
def relListCategoriesH (st : RelState) (auth : String) : Response × RelState :=
  ((200, .categories
      ((dedupF ((relRowsOf st auth).map (fun r => r.tags)).flatten).filter
        (fun c => decide (c ≠ "")))), st)

/-- POST /api/categories after authentication, relational: validation only,
no database access. -/
def relAddCategoryH (st : RelState) (_auth : String) (category : Option String) :
    Response × RelState :=
  match category with
  | none => ((400, .err "Invalid category"), st)
  | some c =>
    if c.trim = "" then ((400, .err "Invalid category"), st)
    else ((201, .category c), st)

/-- DELETE /api/categories/:name after authentication, relational: UPDATE
every row of the owner, removing the name from tags (array_remove strips
all occurrences) and setting updated_at = CURRENT_TIMESTAMP, with no
restriction to rows whose tags contain the name. -/
def relDeleteCategoryH (st : RelState) (auth : String) (name : String) (now : Nat) :
    Response × RelState :=
  let rows' := st.rows.map (fun r =>
    if r.owner = auth then
      { r with tags := r.tags.filter (fun t => decide (t ≠ name)), updatedAt := now }
    else r)
  ((200, .okTrue), { st with rows := rows' })

/-- GET /api/export after authentication, relational: the user's rows with
no ORDER BY, modelled as insertion order. -/
def relExportH (st : RelState) (auth : String) (now : Nat) : Response × RelState :=
  ((200, .exported 1 auth now (relRowsOf st auth)), st)

/-- Wrapper shared by every authenticated route of the relational server. -/
def RelState.withAuth (st : RelState) (tok : Option Nat) (now : Nat)
    (h : RelState → String → Response × RelState) : Response × RelState :=
  match getAuth st.sessions tok now with
  | (none, ss) => ((401, .err "Unauthorized"), { st with sessions := ss })
  | (some u, ss) => h { st with sessions := ss } u

/-- One request against the relational server. -/
def relStep (H : HashFn) (now : Nat) (st : RelState) : Req → Response × RelState
  | .register u p => relRegister H now st u p
  | .login u p => relLogin H now st u p
  | .me tok => st.withAuth tok now fun s a => relMeH s a
  | .listEntries tok => st.withAuth tok now fun s a => relListEntriesH s a
  | .addEntry tok b => st.withAuth tok now fun s a => relAddEntryH s a b now
  | .updateEntry tok id u => st.withAuth tok now fun s a => relUpdateEntryH s a id u now
  | .deleteEntry tok id => st.withAuth tok now fun s a => relDeleteEntryH s a id
  | .listCategories tok => st.withAuth tok now fun s a => relListCategoriesH s a
  | .addCategory tok c => st.withAuth tok now fun s a => relAddCategoryH s a c
  | .deleteCategory tok n => st.withAuth tok now fun s a => relDeleteCategoryH s a n now
  | .exportAll tok => st.withAuth tok now fun s a => relExportH s a now

/-- Run a timed request sequence against the relational server. -/
def relRun (H : HashFn) : List (Nat × Req) → RelState → List Response × RelState
  | [], st => ([], st)
  | (now, q) :: t, st =>
    let s := relStep H now st q
    let r := relRun H t s.2
    (s.1 :: r.1, r.2)

/-- A concrete hash function used by the witnesses: it ignores salt and
iterations, which keeps collision-freeness decidable per input pair. -/
def hId : HashFn := fun p _ _ => p

/-- Extract the entry list of an entries-shaped response body. -/
def entriesOf : Response → List Entry
  | (_, .entries es) => es
  | _ => []

/-- Extract the category list of a categories-shaped response body. -/
def catsOf : Response → List String
  | (_, .categories cs) => cs
  | _ => []

/-! ## Concrete request sequences used by counterexamples and witnesses -/

/-- Register alice, then register alice again with a 3-character password. -/
def c3ops : List (Nat × Req) :=
  [(0, .register "alice" "secret1"), (1, .register "alice" "abc")]

/-- Register alice and bob, log in as bob (token 2), add an entry whose body
carries owner alice, then list bob's entries. -/
def c1ops : List (Nat × Req) :=
  [(0, .register "alice" "secret1"), (1, .register "bob" "secret1"),
   (2, .login "bob" "secret1"),
   (3, .addEntry (some 2) ⟨"https://x.com", "a", "alice", [], none, "ct1", none⟩),
   (4, .listEntries (some 2))]

/-- Register and log in alice (token 1), add an entry tagged work, then list
the categories. -/
def c7ops : List (Nat × Req) :=
  [(0, .register "alice" "secret1"), (1, .login "alice" "secret1"),
   (2, .addEntry (some 1) ⟨"https://x.com", "a", "", ["work"], none, "ct1", none⟩),
   (3, .listCategories (some 1))]

/-- Register and log in alice (token 1), add an entry with a note, then
update it with a payload whose note key is present but empty. -/
def c6ops : List (Nat × Req) :=
  [(0, .register "alice" "secret1"), (1, .login "alice" "secret1"),
   (2, .addEntry (some 1) ⟨"https://x.com", "a", "", [], some "secret-note", "ct1", none⟩),
   (3, .updateEntry (some 1) 2 { note := some "" })]

/-- Register and log in alice (token 1), add an entry tagged x, then delete
the category y, which no entry carries. -/
def c8ops : List (Nat × Req) :=
  [(0, .register "alice" "secret1"), (1, .login "alice" "secret1"),
   (2, .addEntry (some 1) ⟨"https://x.com", "a", "", ["x"], none, "ct1", none⟩),
   (9, .deleteCategory (some 1) "y")]

/-- Register and log in alice (token 1), add an entry, then update it with a
payload carrying an owner key. -/
def c9ops : List (Nat × Req) :=
  [(0, .register "alice" "secret1"), (1, .login "alice" "secret1"),
   (2, .addEntry (some 1) ⟨"https://x.com", "a", "", [], none, "ct1", none⟩),
   (3, .updateEntry (some 1) 2 { owner := some "bob" })]

/-- A stored entry used by concrete witness states. -/
def wRow : Entry := ⟨2, "https://x.com", "a", "alice", ["x"], none, "ct1", none, none, 2, 2⟩

/-- A stored entry owned by bob, used by concrete witness states. -/
def wRowB : Entry := ⟨4, "https://y.com", "b", "bob", [], none, "ct2", none, none, 4, 4⟩

/-! ## Association-list and list lemmas -/

theorem lookupA_setA_self {κ α : Type} [DecidableEq κ] (l : List (κ × α)) (k : κ) (v : α) :
    lookupA (setA l k v) k = some v := by
  induction l with
  | nil => simp [setA, lookupA]
  | cons h t ih =>
    obtain ⟨k', v'⟩ := h
    by_cases hk : k' = k <;> simp [setA, lookupA, hk, ih]

theorem lookupA_setA_ne {κ α : Type} [DecidableEq κ] (l : List (κ × α)) (k k' : κ) (v : α)
    (h : k' ≠ k) : lookupA (setA l k v) k' = lookupA l k' := by
  have hne : ¬k = k' := fun hkk => h hkk.symm
  induction l with
  | nil => simp [setA, lookupA, hne]
  | cons hd t ih =>
    obtain ⟨k₀, v₀⟩ := hd
    by_cases hk : k₀ = k
    · subst hk
      simp [setA, lookupA, hne]
    · simp [setA, lookupA, hk, ih]

theorem setA_fresh {κ α : Type} [DecidableEq κ] (l : List (κ × α)) (k : κ) (v : α)
    (h : lookupA l k = none) : setA l k v = l ++ [(k, v)] := by
  induction l with
  | nil => simp [setA]
  | cons hd t ih =>
    obtain ⟨k₀, v₀⟩ := hd
    by_cases hk : k₀ = k
    · simp [lookupA, hk] at h
    · simp [lookupA, hk] at h
      simp [setA, hk, ih h]

theorem lookupA_filter_ne_self {α : Type} (l : List (Nat × α)) (t : Nat) :
    lookupA (l.filter (fun p => !decide (p.1 = t))) t = none := by
  induction l with
  | nil => simp [lookupA]
  | cons hd tl ih =>
    by_cases hk : hd.1 = t <;> simp_all [List.filter_cons, lookupA]

theorem mem_dedupAux (x : String) (seen l : List String) :
    x ∈ dedupAux seen l ↔ x ∈ l ∧ x ∉ seen := by
  induction l generalizing seen with
  | nil => simp [dedupAux]
  | cons h t ih =>
    by_cases hm : h ∈ seen
    · rw [dedupAux, if_pos hm, ih]
      constructor
      · rintro ⟨hx, hs⟩
        exact ⟨.tail _ hx, hs⟩
      · rintro ⟨hx, hs⟩
        cases hx with
        | head => exact absurd hm hs
        | tail _ hx => exact ⟨hx, hs⟩
    · rw [dedupAux, if_neg hm]
      by_cases hxh : x = h
      · subst hxh
        simp [hm]
      · simp [List.mem_cons, hxh, false_or, ih]

theorem mem_dedupF (x : String) (l : List String) : x ∈ dedupF l ↔ x ∈ l := by
  simp [dedupF, mem_dedupAux]

theorem jsGet_own (l : List (String × UserRec)) (u : String) (r : UserRec)
    (h : lookupA l u = some r) : jsGet l u = some (.stored r) := by
  unfold jsGet
  rw [h]

theorem loadEntries_saveEntries_self (st : FileState) (u : String) (es : List Entry) :
    loadEntries (saveEntries st u es) u = es := by
  simp [loadEntries, saveEntries, lookupA_setA_self]

theorem loadEntries_saveEntries_ne (st : FileState) (u v : String) (es : List Entry)
    (h : v ≠ u) : loadEntries (saveEntries st u es) v = loadEntries st v := by
  simp [loadEntries, saveEntries, lookupA_setA_ne _ _ _ _ h]

theorem map_eq_self_of {α : Type} (l : List α) (f : α → α) (h : ∀ x ∈ l, f x = x) :
    l.map f = l := by
  induction l with
  | nil => rfl
  | cons hd tl ih =>
    simp only [List.map_cons, h hd (by simp)]
    rw [ih fun x hx => h x (by simp [hx])]

theorem filter_map_eq_filter {α : Type} (l : List α) (g : α → α) (p : α → Bool)
    (h : ∀ x ∈ l, (p x = true → g x = x) ∧ p (g x) = p x) :
    (l.map g).filter p = l.filter p := by
  induction l with
  | nil => rfl
  | cons hd tl ih =>
    have hh := h hd (by simp)
    have ihh := ih fun x hx => h x (by simp [hx])
    by_cases hp : p hd = true
    · simp [List.filter_cons, hp, hh.2, hh.1 hp, ihh]
    · have hp' : p hd = false := by cases hph : p hd <;> simp_all
      simp [List.filter_cons, hh.2, hp', ihh]

theorem relUpdateEntryH_rows (rs : RelState) (auth : String) (id : Nat)
    (u : UpdatePayload) (now : Nat) :
    (relUpdateEntryH rs auth id u now).2.rows
      = rs.rows.map (fun r =>
          if r.id = id ∧ r.owner = auth then truthyMerge r u now else r) := by
  simp only [relUpdateEntryH]
  cases rs.rows.find? (fun r => decide (r.id = id ∧ r.owner = auth)) <;> rfl

theorem relDeleteEntryH_rows (rs : RelState) (auth : String) (id : Nat) :
    (relDeleteEntryH rs auth id).2.rows
      = rs.rows.filter (fun r => !(decide (r.id = id ∧ r.owner = auth))) := by
  simp only [relDeleteEntryH]
  split <;> rfl

theorem fileUpdateEntryH_state (fs : FileState) (auth : String) (id : Nat)
    (u : UpdatePayload) (now : Nat) :
    (fileUpdateEntryH fs auth id u now).2
      = saveEntries fs auth ((loadEntries fs auth).map (fun e =>
          if e.id = id then spreadMerge e u now else e)) := by
  simp only [fileUpdateEntryH]
  cases ((loadEntries fs auth).filter (fun e => decide (e.id = id))).getLast? <;> rfl

theorem fileDeleteEntryH_state (fs : FileState) (auth : String) (id : Nat) :
    (fileDeleteEntryH fs auth id).2
      = saveEntries fs auth ((loadEntries fs auth).filter (fun e => decide (e.id ≠ id))) := by
  simp only [fileDeleteEntryH]
  split <;> rfl

/-! ## C5: session expiry -/

/-- C5 counterexample: with a session issued at t = 5 (expiry 5 +
TOKEN_TTL_MS), a check at exactly t' = t + 24h still resolves and answers
200, where the claim demands failure for every t' at or past t + 24h: the
code only expires a session strictly after the boundary instant. -/
theorem c5_counterexample :
    (fileStep hId (5 + TOKEN_TTL_MS)
        (fileRun hId [(0, .register "alice" "secret1"), (5, .login "alice" "secret1")]
          FileState.init).2
        (.me (some 1))).1 = (200, .me "alice") := by
  decide

/-- C5 (amended): a session with expiry t + TOKEN_TTL_MS resolves at every
check time t' up to and including t + TOKEN_TTL_MS with the session map
untouched, and for every t' strictly past it the check fails with the
session entry evicted from the map on that access. -/
theorem c5_session_expiry_amended (sessions : List (Nat × Session)) (tok : Nat)
    (uname : String) (t t' : Nat)
    (hs : lookupA sessions tok = some ⟨uname, t + TOKEN_TTL_MS⟩) :
    (t' ≤ t + TOKEN_TTL_MS →
      getAuth sessions (some tok) t' = (some uname, sessions)) ∧
    (t + TOKEN_TTL_MS < t' →
      (getAuth sessions (some tok) t').1 = none ∧
      lookupA (getAuth sessions (some tok) t').2 tok = none) := by
  constructor
  · intro hle
    simp [getAuth, hs, Nat.not_lt.mpr hle]
  · intro hlt
    simp [getAuth, hs, hlt, lookupA_filter_ne_self]

/-- C5 witness: the amended theorem applied to a one-session map at the
boundary instant and one millisecond past it. -/
theorem c5_witness :
    getAuth [(1, ⟨"alice", 5 + TOKEN_TTL_MS⟩)] (some 1) (5 + TOKEN_TTL_MS)
      = (some "alice", [(1, ⟨"alice", 5 + TOKEN_TTL_MS⟩)]) ∧
    (getAuth [(1, ⟨"alice", 5 + TOKEN_TTL_MS⟩)] (some 1) (6 + TOKEN_TTL_MS)).1 = none ∧
    lookupA (getAuth [(1, ⟨"alice", 5 + TOKEN_TTL_MS⟩)] (some 1) (6 + TOKEN_TTL_MS)).2 1
      = none := by
  refine ⟨?_, ?_⟩
  · exact (c5_session_expiry_amended _ 1 "alice" 5 _ (by decide)).1 (by simp)
  · exact (c5_session_expiry_amended _ 1 "alice" 5 _ (by decide)).2 (by simp)

/-! ## C3: registration uniqueness -/

/-- C3 counterexample: with alice already registered, a later
register(alice, abc) answers 400 Invalid username or password in both
backends, not the claimed 409 User exists, because input validation runs
before the existence check. -/
theorem c3_counterexample :
    (fileRun hId c3ops FileState.init).1
      = [(201, .okTrue), (400, .err "Invalid username or password")] ∧
    (relRun hId c3ops RelState.init).1
      = [(201, .okTrue), (400, .err "Invalid username or password")] := by
  constructor <;> decide

/-- C3 (amended): once a user record for u exists, no later register(u, p)
succeeds and the whole state is left unchanged, in both backends; the
failure is 409 User exists whenever the inputs pass validation and 400
otherwise. -/
theorem c3_register_unique_amended (H : HashFn) (now : Nat) (fs : FileState)
    (rs : RelState) (u p : String) (rf rr : UserRec)
    (hf : lookupA fs.users u = some rf) (hr : lookupA rs.users u = some rr) :
    ((fileRegister H now fs u p).1.1 ≠ 201 ∧
      (fileRegister H now fs u p).2 = fs ∧
      ((isValidUser u && isValidPassword p) = true →
        (fileRegister H now fs u p).1 = (409, .err "User exists")) ∧
      ((isValidUser u && isValidPassword p) = false →
        (fileRegister H now fs u p).1 = (400, .err "Invalid username or password"))) ∧
    ((relRegister H now rs u p).1.1 ≠ 201 ∧
      (relRegister H now rs u p).2 = rs ∧
      ((isValidUser u && isValidPassword p) = true →
        (relRegister H now rs u p).1 = (409, .err "User exists")) ∧
      ((isValidUser u && isValidPassword p) = false →
        (relRegister H now rs u p).1 = (400, .err "Invalid username or password"))) := by
  have hjf : jsGet fs.users u = some (.stored rf) := jsGet_own _ _ _ hf
  cases hv : (isValidUser u && isValidPassword p) <;>
    simp [fileRegister, relRegister, hv, hjf, hr]

/-- C3 witness: the amended theorem applied to states holding a record for
alice, with a valid and an invalid later attempt. -/
theorem c3_witness :
    (fileRegister hId 9 ⟨[("alice", ⟨0, "secret1", 120000, 0⟩)], [], [], 1⟩
        "alice" "other-pass").1 = (409, .err "User exists") ∧
    (fileRegister hId 9 ⟨[("alice", ⟨0, "secret1", 120000, 0⟩)], [], [], 1⟩
        "alice" "abc").1 = (400, .err "Invalid username or password") := by
  refine ⟨?_, ?_⟩
  · exact (c3_register_unique_amended hId 9 ⟨[("alice", ⟨0, "secret1", 120000, 0⟩)], [], [], 1⟩
      ⟨[("alice", ⟨0, "secret1", 120000, 0⟩)], [], [], 1⟩ "alice" "other-pass"
      ⟨0, "secret1", 120000, 0⟩ ⟨0, "secret1", 120000, 0⟩
      (by decide) (by decide)).1.2.2.1 (by decide)
  · exact (c3_register_unique_amended hId 9 ⟨[("alice", ⟨0, "secret1", 120000, 0⟩)], [], [], 1⟩
      ⟨[("alice", ⟨0, "secret1", 120000, 0⟩)], [], [], 1⟩ "alice" "abc"
      ⟨0, "secret1", 120000, 0⟩ ⟨0, "secret1", 120000, 0⟩
      (by decide) (by decide)).1.2.2.2 (by decide)

/-! ## C7: category derivation -/

/-- C7 counterexample: after adding an entry whose tags are exactly work,
the file backend's category listing is empty, not the claimed set of
distinct non-empty tag values: that handler derives categories from the
per-entry category field, never from tags. -/
theorem c7_counterexample :
    (fileRun hId c7ops FileState.init).1.getLast? = some (200, .categories []) ∧
    (loadEntries (fileRun hId c7ops FileState.init).2 "alice").map Entry.tags
      = [["work"]] := by
  constructor <;> decide

/-- C7 (amended): the relational category listing is exactly the set of
distinct non-empty tag values across the owner's current rows, while the
file backend's is exactly the set of distinct non-empty category-field
values across the owner's current entries; neither consults any separate
stored category state, and neither changes the state. -/
theorem c7_categories_amended (fs : FileState) (rs : RelState) (auth c : String) :
    (c ∈ catsOf (relListCategoriesH rs auth).1 ↔
      c ≠ "" ∧ ∃ r ∈ rs.rows, r.owner = auth ∧ c ∈ r.tags) ∧
    (c ∈ catsOf (fileListCategoriesH fs auth).1 ↔
      c ≠ "" ∧ ∃ e ∈ loadEntries fs auth, e.category = some c) ∧
    (relListCategoriesH rs auth).2 = rs ∧
    (fileListCategoriesH fs auth).2 = fs := by
  refine ⟨?_, ?_, rfl, rfl⟩
  · simp only [relListCategoriesH, catsOf, List.mem_filter, mem_dedupF,
      List.mem_flatten, List.mem_map, relRowsOf, decide_eq_true_eq]
    constructor
    · rintro ⟨⟨l, ⟨r, hr, rfl⟩, hcl⟩, hc⟩
      exact ⟨hc, r, hr.1, hr.2, hcl⟩
    · rintro ⟨hc, r, hr, hro, hcl⟩
      exact ⟨⟨r.tags, ⟨r, ⟨hr, hro⟩, rfl⟩, hcl⟩, hc⟩
  · simp only [fileListCategoriesH, catsOf, List.mem_filter, mem_dedupF,
      List.mem_filterMap, List.mem_map, id_eq, decide_eq_true_eq]
    constructor
    · rintro ⟨⟨o, ⟨e, he, rfl⟩, ho⟩, hc⟩
      exact ⟨hc, e, he, ho⟩
    · rintro ⟨hc, e, he, ho⟩
      exact ⟨⟨e.category, ⟨e, he, rfl⟩, ho⟩, hc⟩

/-- C7 witness: the amended characterization applied to concrete one-entry
states, evaluated at the tag x. -/
theorem c7_witness :
    ("x" ∈ catsOf (relListCategoriesH ⟨[], [wRow], [], 3⟩ "alice").1 ↔
      "x" ≠ "" ∧ ∃ r ∈ [wRow], r.owner = "alice" ∧ "x" ∈ r.tags) ∧
    ("x" ∈ catsOf (fileListCategoriesH ⟨[], [("alice", [wRow])], [], 3⟩ "alice").1 ↔
      "x" ≠ "" ∧ ∃ e ∈ loadEntries ⟨[], [("alice", [wRow])], [], 3⟩ "alice",
        e.category = some "x") :=
  ⟨(c7_categories_amended ⟨[], [("alice", [wRow])], [], 3⟩ ⟨[], [wRow], [], 3⟩
      "alice" "x").1,
   (c7_categories_amended ⟨[], [("alice", [wRow])], [], 3⟩ ⟨[], [wRow], [], 3⟩
      "alice" "x").2.1⟩

/-! ## C10: body-supplied owner overrides the authenticated username -/

/-- C4 counterexample: toString is a valid username, yet on the empty file
backend store register(toString, secret1) answers 409 User exists — so no
register-then-login round trip exists for it — and login with the unknown
username toString answers 500 Server error while login with the unknown
username nobody1 answers the 401 the claim expects: users[username] on the
JSON.parse users object reads a truthy value inherited from
Object.prototype. -/
theorem c4_counterexample :
    isValidUser "toString" = true ∧
    (fileRegister hId 0 FileState.init "toString" "secret1").1
      = (409, .err "User exists") ∧
    (fileLogin hId 0 FileState.init "toString" "secret1").1
      = (500, .err "Server error") ∧
    (fileLogin hId 0 FileState.init "nobody1" "secret1").1
      = (401, .err "Invalid credentials") := by
  refine ⟨?_, ?_, ?_, ?_⟩ <;> decide

/-- C4 (amended): for a fresh valid username naming no Object.prototype
property, registering and then logging in with the same password answers
200 in both backends; logging in with any password whose hash differs from
the registered one, and logging in as any unknown username that also names
no Object.prototype property, answer the identical 401 Invalid credentials
response.  In the file backend a username naming an Object.prototype
property instead always answers 409 to a valid register and 500 Server
error to a login while unregistered, because users[username] reads the
truthy inherited value; the relational backend, whose lookups are SQL
queries, satisfies the original claim unrestricted.  The hash hypothesis
expresses collision-freeness of the key-derivation function on the two
passwords, which the external pbkdf2 is relied upon to provide. -/
theorem c4_password_roundtrip_amended (H : HashFn) (u p : String) (t0 t1 : Nat)
    (fs : FileState) (rs : RelState)
    (hu : isValidUser u = true) (hp : isValidPassword p = true)
    (hupr : u ∉ protoProps)
    (hfu : lookupA fs.users u = none) (hru : lookupA rs.users u = none) :
    ((fileLogin H t1 (fileRegister H t0 fs u p).2 u p).1.1 = 200) ∧
    ((relLogin H t1 (relRegister H t0 rs u p).2 u p).1.1 = 200) ∧
    (∀ p', (∀ s i, H p' s i ≠ H p s i) →
      (fileLogin H t1 (fileRegister H t0 fs u p).2 u p').1
        = (401, .err "Invalid credentials") ∧
      (relLogin H t1 (relRegister H t0 rs u p).2 u p').1
        = (401, .err "Invalid credentials")) ∧
    (∀ u' p'', u' ≠ u → u' ∉ protoProps →
      lookupA fs.users u' = none → lookupA rs.users u' = none →
      (fileLogin H t1 (fileRegister H t0 fs u p).2 u' p'').1
        = (401, .err "Invalid credentials") ∧
      (relLogin H t1 (relRegister H t0 rs u p).2 u' p'').1
        = (401, .err "Invalid credentials")) ∧
    (∀ w q0, w ∈ protoProps → isValidUser w = true → isValidPassword q0 = true →
      (fileRegister H t0 fs w q0).1 = (409, .err "User exists")) ∧
    (∀ w q0, w ∈ protoProps → lookupA fs.users w = none →
      (fileLogin H t1 fs w q0).1 = (500, .err "Server error")) := by
  have happ : rs.users ++ [(u, (⟨rs.ctr, H p rs.ctr 120000, 120000, t0⟩ : UserRec))]
      = setA rs.users u ⟨rs.ctr, H p rs.ctr 120000, 120000, t0⟩ :=
    (setA_fresh rs.users u _ hru).symm
  refine ⟨?_, ?_, ?_, ?_, ?_, ?_⟩
  · simp [fileRegister, fileLogin, jsGet, hu, hp, hfu, hupr, lookupA_setA_self]
  · simp [relRegister, relLogin, hu, hp, hru, happ, lookupA_setA_self]
  · intro p' hcol
    constructor
    · simp [fileRegister, fileLogin, jsGet, hu, hp, hfu, hupr, lookupA_setA_self,
        hcol fs.ctr 120000]
    · simp [relRegister, relLogin, hu, hp, hru, happ, lookupA_setA_self,
        hcol rs.ctr 120000]
  · intro u' p'' hne hu'pr hfu' hru'
    constructor
    · simp [fileRegister, fileLogin, jsGet, hu, hp, hfu, hupr, hu'pr,
        lookupA_setA_ne _ _ _ _ hne, hfu']
    · simp [relRegister, relLogin, hu, hp, hru, happ,
        lookupA_setA_ne _ _ _ _ hne, hru']
  · intro w q0 hw hwv hq0
    have hjw : ∃ v, jsGet fs.users w = some v := by
      unfold jsGet
      cases lookupA fs.users w with
      | some r => exact ⟨.stored r, rfl⟩
      | none => exact ⟨.proto, by simp [hw]⟩
    obtain ⟨v, hjw⟩ := hjw
    simp [fileRegister, hwv, hq0, hjw]
  · intro w q0 hw hlw
    have hjw : jsGet fs.users w = some .proto := by
      unfold jsGet
      rw [hlw]
      simp [hw]
    simp [fileLogin, hjw]

/-- C4 witness: register alice with secret1 from the empty state, then log
in with secret1, with wrong77, and as the unknown nobody1; and the
prototype-named toString answers 409 to a register on the empty store. -/
theorem c4_witness :
    ((fileLogin hId 1 (fileRegister hId 0 FileState.init "alice" "secret1").2
        "alice" "secret1").1.1 = 200) ∧
    ((fileLogin hId 1 (fileRegister hId 0 FileState.init "alice" "secret1").2
        "alice" "wrong77").1 = (401, .err "Invalid credentials")) ∧
    ((fileLogin hId 1 (fileRegister hId 0 FileState.init "alice" "secret1").2
        "nobody1" "zzz").1 = (401, .err "Invalid credentials")) ∧
    ((fileRegister hId 0 FileState.init "toString" "secret1").1
      = (409, .err "User exists")) := by
  have h := c4_password_roundtrip_amended hId "alice" "secret1" 0 1
    FileState.init RelState.init (by decide) (by decide) (by decide) rfl rfl
  exact ⟨h.1, (h.2.2.1 "wrong77"
      (fun s i => (by decide : ("wrong77" : String) ≠ "secret1"))).1,
    (h.2.2.2.1 "nobody1" "zzz" (by decide) (by decide) rfl rfl).1,
    h.2.2.2.2.1 "toString" "secret1" (by decide) (by decide) (by decide)⟩

/-! ## C9: id, owner, createdAt across updates -/

/-- C9 counterexample: in the file backend, an update payload carrying an
owner key rewrites the stored entry's owner through the object spread: the
entry created by alice ends up owned by bob after her own update. -/
theorem c9_counterexample :
    (loadEntries (fileRun hId c9ops FileState.init).2 "alice").map Entry.owner
      = ["bob"] ∧
    "bob" ≠ "alice" := by
  constructor <;> decide

/-- C9 (amended): the relational update preserves id, owner and createdAt
of every row unconditionally (those columns have no SET clause); the file
backend update preserves them only when the payload carries no id, owner or
createdAt key. -/
theorem c9_immutable_fields_amended (rs : RelState) (fs : FileState) (auth : String)
    (id : Nat) (u : UpdatePayload) (now : Nat) :
    List.Forall₂ (fun r r' : Entry =>
        r'.id = r.id ∧ r'.owner = r.owner ∧ r'.createdAt = r.createdAt)
      rs.rows (relUpdateEntryH rs auth id u now).2.rows ∧
    (u.id = none → u.owner = none → u.createdAt = none →
      List.Forall₂ (fun e e' : Entry =>
          e'.id = e.id ∧ e'.owner = e.owner ∧ e'.createdAt = e.createdAt)
        (loadEntries fs auth) (loadEntries (fileUpdateEntryH fs auth id u now).2 auth)) := by
  constructor
  · have hrows : (relUpdateEntryH rs auth id u now).2.rows
        = rs.rows.map (fun r =>
            if r.id = id ∧ r.owner = auth then truthyMerge r u now else r) := by
      simp only [relUpdateEntryH]
      cases rs.rows.find? (fun r => decide (r.id = id ∧ r.owner = auth)) <;> rfl
    rw [hrows, List.forall₂_map_right_iff, List.forall₂_same]
    intro r _
    by_cases hc : r.id = id ∧ r.owner = auth <;> simp [hc, truthyMerge]
  · intro hid how hca
    have hrows : loadEntries (fileUpdateEntryH fs auth id u now).2 auth
        = (loadEntries fs auth).map (fun e =>
            if e.id = id then spreadMerge e u now else e) := by
      simp only [fileUpdateEntryH]
      cases ((loadEntries fs auth).filter (fun e => decide (e.id = id))).getLast? <;>
        simp [loadEntries_saveEntries_self]
    rw [hrows, List.forall₂_map_right_iff, List.forall₂_same]
    intro e _
    by_cases hc : e.id = id <;> simp [hc, spreadMerge, hid, how, hca]

/-- C9 witness: the amended theorem applied to one-entry states and a
payload updating only the note. -/
theorem c9_witness :
    List.Forall₂ (fun r r' : Entry =>
        r'.id = r.id ∧ r'.owner = r.owner ∧ r'.createdAt = r.createdAt)
      [wRow] (relUpdateEntryH ⟨[], [wRow], [], 3⟩ "alice" 2 { note := some "n" } 9).2.rows ∧
    List.Forall₂ (fun e e' : Entry =>
        e'.id = e.id ∧ e'.owner = e.owner ∧ e'.createdAt = e.createdAt)
      [wRow]
      (loadEntries
        (fileUpdateEntryH ⟨[], [("alice", [wRow])], [], 3⟩ "alice" 2
          { note := some "n" } 9).2 "alice") :=
  ⟨(c9_immutable_fields_amended ⟨[], [wRow], [], 3⟩ ⟨[], [("alice", [wRow])], [], 3⟩
      "alice" 2 { note := some "n" } 9).1,
   (c9_immutable_fields_amended ⟨[], [wRow], [], 3⟩ ⟨[], [("alice", [wRow])], [], 3⟩
      "alice" 2 { note := some "n" } 9).2 rfl rfl rfl⟩

/-! ## C6: partial update merge -/

/-- C6 counterexample: in the relational backend, an update whose payload
carries the present-but-empty field note answers 200 yet leaves the stored
note unchanged, because only truthy payload fields produce a SET clause;
the claim demands every present field to be merged. -/
theorem c6_counterexample :
    (relRun hId c6ops RelState.init).1.getLast?
      = some (200, .entry ⟨2, "https://x.com", "a", "alice", [], some "secret-note",
          "ct1", none, none, 2, 3⟩) ∧
    (relRun hId c6ops RelState.init).2.rows.map Entry.note = [some "secret-note"] ∧
    some "secret-note" ≠ some "" := by
  refine ⟨?_, ?_, ?_⟩ <;> decide

/-- C6 (amended): the update handlers always refresh updatedAt and answer
404 Not found, leaving the store observably unchanged, when the owner has
no entry with the id; on a match, the stored entry and the echoed 200
response are the merge of the old entry with the payload, where the file
backend's merge takes exactly the fields whose key is present in the
payload, whatever their value, and the relational backend's merge takes
exactly the fields that are present and truthy (non-empty strings; a
present tags list is always truthy), every other stored entry and every
other vault being left unchanged. -/
theorem c6_update_merge_amended (fs : FileState) (rs : RelState) (auth : String)
    (id : Nat) (u : UpdatePayload) (now : Nat) :
    (∀ r0 : Entry,
      (truthyMerge r0 u now).updatedAt = now ∧
      (∀ s, u.note = some s → s ≠ "" → (truthyMerge r0 u now).note = some s) ∧
      (u.note = none ∨ u.note = some "" → (truthyMerge r0 u now).note = r0.note) ∧
      (∀ s, u.url = some s → s ≠ "" → (truthyMerge r0 u now).url = s) ∧
      (u.url = none ∨ u.url = some "" → (truthyMerge r0 u now).url = r0.url) ∧
      (∀ s, u.username = some s → s ≠ "" → (truthyMerge r0 u now).username = s) ∧
      (u.username = none ∨ u.username = some "" →
        (truthyMerge r0 u now).username = r0.username) ∧
      (∀ s, u.passwordEncrypted = some s → s ≠ "" →
        (truthyMerge r0 u now).passwordEncrypted = s) ∧
      (u.passwordEncrypted = none ∨ u.passwordEncrypted = some "" →
        (truthyMerge r0 u now).passwordEncrypted = r0.passwordEncrypted) ∧
      (∀ s, u.faviconUrl = some s → s ≠ "" → (truthyMerge r0 u now).faviconUrl = some s) ∧
      (u.faviconUrl = none ∨ u.faviconUrl = some "" →
        (truthyMerge r0 u now).faviconUrl = r0.faviconUrl) ∧
      (∀ ts, u.tags = some ts → (truthyMerge r0 u now).tags = ts) ∧
      (u.tags = none → (truthyMerge r0 u now).tags = r0.tags)) ∧
    (∀ e0 : Entry,
      (spreadMerge e0 u now).updatedAt = now ∧
      (∀ s, u.note = some s → (spreadMerge e0 u now).note = some s) ∧
      (u.note = none → (spreadMerge e0 u now).note = e0.note) ∧
      (∀ s, u.url = some s → (spreadMerge e0 u now).url = s) ∧
      (u.url = none → (spreadMerge e0 u now).url = e0.url) ∧
      (∀ s, u.username = some s → (spreadMerge e0 u now).username = s) ∧
      (u.username = none → (spreadMerge e0 u now).username = e0.username) ∧
      (∀ s, u.passwordEncrypted = some s → (spreadMerge e0 u now).passwordEncrypted = s) ∧
      (u.passwordEncrypted = none →
        (spreadMerge e0 u now).passwordEncrypted = e0.passwordEncrypted) ∧
      (∀ s, u.faviconUrl = some s → (spreadMerge e0 u now).faviconUrl = some s) ∧
      (u.faviconUrl = none → (spreadMerge e0 u now).faviconUrl = e0.faviconUrl) ∧
      (∀ ts, u.tags = some ts → (spreadMerge e0 u now).tags = ts) ∧
      (u.tags = none → (spreadMerge e0 u now).tags = e0.tags)) ∧
    ((∀ r ∈ rs.rows, ¬(r.id = id ∧ r.owner = auth)) →
      (relUpdateEntryH rs auth id u now).1 = (404, .err "Not found") ∧
      (relUpdateEntryH rs auth id u now).2 = rs) ∧
    (∀ r, rs.rows.find? (fun r => decide (r.id = id ∧ r.owner = auth)) = some r →
      (relUpdateEntryH rs auth id u now).1 = (200, .entry (truthyMerge r u now)) ∧
      List.Forall₂ (fun r0 r0' : Entry =>
          (r0.id = id ∧ r0.owner = auth → r0' = truthyMerge r0 u now) ∧
          (¬(r0.id = id ∧ r0.owner = auth) → r0' = r0))
        rs.rows (relUpdateEntryH rs auth id u now).2.rows) ∧
    ((∀ e ∈ loadEntries fs auth, e.id ≠ id) →
      (fileUpdateEntryH fs auth id u now).1 = (404, .err "Not found") ∧
      ∀ v, loadEntries (fileUpdateEntryH fs auth id u now).2 v = loadEntries fs v) ∧
    (∀ e0, (loadEntries fs auth).filter (fun e => decide (e.id = id)) = [e0] →
      (fileUpdateEntryH fs auth id u now).1 = (200, .entry (spreadMerge e0 u now)) ∧
      List.Forall₂ (fun e1 e1' : Entry =>
          (e1.id = id → e1' = spreadMerge e1 u now) ∧
          (e1.id ≠ id → e1' = e1))
        (loadEntries fs auth)
        (loadEntries (fileUpdateEntryH fs auth id u now).2 auth) ∧
      (∀ v, v ≠ auth →
        loadEntries (fileUpdateEntryH fs auth id u now).2 v = loadEntries fs v)) := by
  refine ⟨?_, ?_, ?_, ?_, ?_, ?_⟩
  · intro r0
    refine ⟨rfl, ?_, ?_, ?_, ?_, ?_, ?_, ?_, ?_, ?_, ?_, ?_, ?_⟩
    · intro s hs hs0
      simp [truthyMerge, mergeOptStr, hs, hs0]
    · rintro (h | h) <;> simp [truthyMerge, mergeOptStr, h]
    · intro s hs hs0
      simp [truthyMerge, mergeStr, hs, hs0]
    · rintro (h | h) <;> simp [truthyMerge, mergeStr, h]
    · intro s hs hs0
      simp [truthyMerge, mergeStr, hs, hs0]
    · rintro (h | h) <;> simp [truthyMerge, mergeStr, h]
    · intro s hs hs0
      simp [truthyMerge, mergeStr, hs, hs0]
    · rintro (h | h) <;> simp [truthyMerge, mergeStr, h]
    · intro s hs hs0
      simp [truthyMerge, mergeOptStr, hs, hs0]
    · rintro (h | h) <;> simp [truthyMerge, mergeOptStr, h]
    · intro ts hts
      simp [truthyMerge, hts]
    · intro hts
      simp [truthyMerge, hts]
  · intro e0
    refine ⟨rfl, ?_, ?_, ?_, ?_, ?_, ?_, ?_, ?_, ?_, ?_, ?_, ?_⟩
    · intro s hs
      simp [spreadMerge, hs]
    · intro h
      simp [spreadMerge, h]
    · intro s hs
      simp [spreadMerge, hs]
    · intro h
      simp [spreadMerge, h]
    · intro s hs
      simp [spreadMerge, hs]
    · intro h
      simp [spreadMerge, h]
    · intro s hs
      simp [spreadMerge, hs]
    · intro h
      simp [spreadMerge, h]
    · intro s hs
      simp [spreadMerge, hs]
    · intro h
      simp [spreadMerge, h]
    · intro ts hts
      simp [spreadMerge, hts]
    · intro hts
      simp [spreadMerge, hts]
  · intro hno
    have hfind : rs.rows.find? (fun r => decide (r.id = id ∧ r.owner = auth)) = none :=
      List.find?_eq_none.mpr (fun x hx => by simpa using hno x hx)
    have hmap : rs.rows.map (fun r =>
        if r.id = id ∧ r.owner = auth then truthyMerge r u now else r) = rs.rows :=
      map_eq_self_of _ _ (fun x hx => if_neg (hno x hx))
    constructor
    · simp only [relUpdateEntryH, hfind]
    · simp only [relUpdateEntryH, hfind]
      rw [hmap]
  · intro r hfind
    constructor
    · simp only [relUpdateEntryH, hfind]
    · rw [relUpdateEntryH_rows, List.forall₂_map_right_iff, List.forall₂_same]
      intro r0 _
      by_cases hc : r0.id = id ∧ r0.owner = auth <;> simp [hc]
  · intro hno
    have hfil : (loadEntries fs auth).filter (fun e => decide (e.id = id)) = [] :=
      List.filter_eq_nil_iff.mpr (fun x hx => by simpa using hno x hx)
    have hmap : (loadEntries fs auth).map (fun e =>
        if e.id = id then spreadMerge e u now else e) = loadEntries fs auth :=
      map_eq_self_of _ _ (fun x hx => if_neg (hno x hx))
    constructor
    · simp only [fileUpdateEntryH, hfil, List.getLast?_nil]
    · intro v
      have hst : (fileUpdateEntryH fs auth id u now).2
          = saveEntries fs auth (loadEntries fs auth) := by
        simp only [fileUpdateEntryH, hfil, List.getLast?_nil, hmap]
      rw [hst]
      by_cases hv : v = auth
      · rw [hv, loadEntries_saveEntries_self]
      · rw [loadEntries_saveEntries_ne _ _ _ _ hv]
  · intro e0 hone
    refine ⟨?_, ?_, ?_⟩
    · simp only [fileUpdateEntryH, hone, List.getLast?_singleton]
    · rw [show loadEntries (fileUpdateEntryH fs auth id u now).2 auth
            = (loadEntries fs auth).map (fun e =>
                if e.id = id then spreadMerge e u now else e) from by
          rw [fileUpdateEntryH_state, loadEntries_saveEntries_self],
        List.forall₂_map_right_iff, List.forall₂_same]
      intro e1 _
      by_cases hc : e1.id = id <;> simp [hc]
    · intro v hv
      rw [fileUpdateEntryH_state, loadEntries_saveEntries_ne _ _ _ _ hv]

/-- C6 witness: the amended theorem applied to concrete one-entry states,
with a payload updating the note to a non-empty string. -/
theorem c6_witness :
    (relUpdateEntryH ⟨[], [wRow], [], 3⟩ "alice" 2 { note := some "n" } 9).1
      = (200, .entry (truthyMerge wRow { note := some "n" } 9)) ∧
    (fileUpdateEntryH ⟨[], [("alice", [wRow])], [], 3⟩ "alice" 2
        { note := some "n" } 9).1
      = (200, .entry (spreadMerge wRow { note := some "n" } 9)) ∧
    (truthyMerge wRow { note := some "n" } 9).note = some "n" ∧
    (spreadMerge wRow { note := some "n" } 9).note = some "n" := by
  have h := c6_update_merge_amended ⟨[], [("alice", [wRow])], [], 3⟩ ⟨[], [wRow], [], 3⟩
    "alice" 2 { note := some "n" } 9
  exact ⟨(h.2.2.2.1 wRow (by decide)).1, (h.2.2.2.2.2 wRow (by decide)).1,
    (h.1 wRow).2.1 "n" rfl (by decide), (h.2.1 wRow).2.1 "n" rfl⟩

/-! ## C8: category deletion -/

/-- C8 counterexample: deleting a category that no entry carries is not a
no-op in the relational backend: the single row of alice, tagged x and last
updated at time 2, gets its updated_at bumped to the deletion time 9 by the
unconditional UPDATE over all of the owner's rows. -/
theorem c8_counterexample :
    (relRun hId c8ops RelState.init).1.getLast? = some (200, .okTrue) ∧
    (relRun hId c8ops RelState.init).2.rows.map (fun r => (r.tags, r.updatedAt))
      = [(["x"], 9)] ∧
    (9 : Nat) ≠ 2 := by
  refine ⟨?_, ?_, ?_⟩ <;> decide

/-- C8 (amended): relational category deletion removes the name from the
tags of every row of the owner and leaves every other field of those rows
and all rows of other owners unchanged, but refreshes updated_at on every
row of the owner whether or not it carried the name; the file backend
instead clears the category field (bumping updatedAt) of exactly the
owner's entries whose category equals the name, and never touches tags. -/
theorem c8_delete_category_amended (rs : RelState) (fs : FileState) (auth name : String)
    (now : Nat) :
    (relDeleteCategoryH rs auth name now).1 = (200, .okTrue) ∧
    List.Forall₂ (fun r r' : Entry =>
        (r.owner = auth →
          r' = { r with tags := r.tags.filter (fun t => decide (t ≠ name)),
                        updatedAt := now }) ∧
        (r.owner ≠ auth → r' = r))
      rs.rows (relDeleteCategoryH rs auth name now).2.rows ∧
    (∀ r' ∈ (relDeleteCategoryH rs auth name now).2.rows,
      r'.owner = auth → name ∉ r'.tags) ∧
    (fileDeleteCategoryH fs auth name now).1 = (200, .okTrue) ∧
    List.Forall₂ (fun e e' : Entry =>
        e'.tags = e.tags ∧
        (e.category = some name → e' = { e with category := none, updatedAt := now }) ∧
        (e.category ≠ some name → e' = e))
      (loadEntries fs auth) (loadEntries (fileDeleteCategoryH fs auth name now).2 auth) ∧
    (∀ v, v ≠ auth →
      loadEntries (fileDeleteCategoryH fs auth name now).2 v = loadEntries fs v) := by
  refine ⟨rfl, ?_, ?_, rfl, ?_, ?_⟩
  · rw [show (relDeleteCategoryH rs auth name now).2.rows
        = rs.rows.map (fun r =>
            if r.owner = auth then
              { r with tags := r.tags.filter (fun t => decide (t ≠ name)),
                       updatedAt := now }
            else r) from rfl]
    rw [List.forall₂_map_right_iff, List.forall₂_same]
    intro r _
    by_cases hr : r.owner = auth <;> simp [hr]
  · intro r' hr' ho
    rw [show (relDeleteCategoryH rs auth name now).2.rows
        = rs.rows.map (fun r =>
            if r.owner = auth then
              { r with tags := r.tags.filter (fun t => decide (t ≠ name)),
                       updatedAt := now }
            else r) from rfl] at hr'
    obtain ⟨r, -, rfl⟩ := List.mem_map.mp hr'
    by_cases hr : r.owner = auth
    · simp [hr, List.mem_filter]
    · rw [if_neg hr] at ho
      exact absurd ho hr
  · have hst : loadEntries (fileDeleteCategoryH fs auth name now).2 auth
        = (loadEntries fs auth).map (fun e =>
            if e.category = some name then { e with category := none, updatedAt := now }
            else e) := loadEntries_saveEntries_self ..
    rw [hst, List.forall₂_map_right_iff, List.forall₂_same]
    intro e _
    by_cases he : e.category = some name <;> simp [he]
  · intro v hv
    exact loadEntries_saveEntries_ne _ _ _ _ hv

/-- C8 witness: the amended theorem applied to concrete one-entry states. -/
theorem c8_witness :
    List.Forall₂ (fun r r' : Entry =>
        (r.owner = "alice" →
          r' = { r with tags := r.tags.filter (fun t => decide (t ≠ "y")),
                        updatedAt := 9 }) ∧
        (r.owner ≠ "alice" → r' = r))
      [wRow] (relDeleteCategoryH ⟨[], [wRow], [], 3⟩ "alice" "y" 9).2.rows ∧
    List.Forall₂ (fun e e' : Entry =>
        e'.tags = e.tags ∧
        (e.category = some "y" → e' = { e with category := none, updatedAt := 9 }) ∧
        (e.category ≠ some "y" → e' = e))
      [wRow]
      (loadEntries (fileDeleteCategoryH ⟨[], [("alice", [wRow])], [], 3⟩
        "alice" "y" 9).2 "alice") :=
  ⟨(c8_delete_category_amended ⟨[], [wRow], [], 3⟩ ⟨[], [("alice", [wRow])], [], 3⟩
      "alice" "y" 9).2.1,
   (c8_delete_category_amended ⟨[], [wRow], [], 3⟩ ⟨[], [("alice", [wRow])], [], 3⟩
      "alice" "y" 9).2.2.2.2.1⟩

/-! ## C1: ownership isolation -/

/-- C1 counterexample: in the file backend, bob (token 2) creates an entry
whose body carries owner alice; the entry is stored owned by alice in bob's
vault file, and bob's own listEntries returns it, so an entry owned by
alice is returned to a request authenticated as bob. -/
theorem c1_counterexample :
    (fileRun hId c1ops FileState.init).1.getLast?
      = some (200, .entries
          [⟨3, "https://x.com", "a", "alice", [], none, "ct1", none, none, 3, 3⟩]) ∧
    "alice" ≠ "bob" := by
  constructor <;> decide

/-- C1 (amended): for distinct users A and B, the relational backend never
returns, modifies or removes a row owned by A on a listEntries, updateEntry
or deleteEntry request authenticated as B; the file backend's update and
delete only ever rewrite B's own vault file, leaving A's vault unchanged,
and its listEntries returns no entry owned by A provided every entry stored
in B's vault carries owner B.  (That proviso is a genuine state property:
both a body-supplied owner on creation and an owner key in an update
payload can place an A-owned entry in B's vault file.) -/
theorem c1_isolation_amended (A B : String) (hAB : A ≠ B) (rs : RelState)
    (fs : FileState) (id : Nat) (u : UpdatePayload) (now : Nat) :
    (∀ e ∈ entriesOf (relListEntriesH rs B).1, e.owner = B ∧ e.owner ≠ A) ∧
    relRowsOf (relUpdateEntryH rs B id u now).2 A = relRowsOf rs A ∧
    relRowsOf (relDeleteEntryH rs B id).2 A = relRowsOf rs A ∧
    loadEntries (fileUpdateEntryH fs B id u now).2 A = loadEntries fs A ∧
    loadEntries (fileDeleteEntryH fs B id).2 A = loadEntries fs A ∧
    ((∀ e ∈ loadEntries fs B, e.owner = B) →
      ∀ e ∈ entriesOf (fileListEntriesH fs B).1, e.owner ≠ A) := by
  refine ⟨?_, ?_, ?_, ?_, ?_, ?_⟩
  · intro e he
    simp only [relListEntriesH, entriesOf, List.mem_reverse, relRowsOf,
      List.mem_filter, decide_eq_true_eq] at he
    exact ⟨he.2, fun hA => hAB (hA ▸ he.2)⟩
  · rw [show relRowsOf (relUpdateEntryH rs B id u now).2 A
        = ((relUpdateEntryH rs B id u now).2.rows).filter (fun r => decide (r.owner = A))
      from rfl, relUpdateEntryH_rows]
    refine filter_map_eq_filter _ _ _ (fun x _ => ⟨?_, ?_⟩)
    · intro hp
      have hA : x.owner = A := by simpa using hp
      rw [if_neg]
      rintro ⟨-, hB⟩
      exact hAB (hA.symm.trans hB)
    · by_cases hc : x.id = id ∧ x.owner = B
      · simp [hc, truthyMerge]
      · simp [hc]
  · rw [show relRowsOf (relDeleteEntryH rs B id).2 A
        = ((relDeleteEntryH rs B id).2.rows).filter (fun r => decide (r.owner = A))
      from rfl, relDeleteEntryH_rows, List.filter_filter]
    refine List.filter_congr (fun x _ => ?_)
    by_cases hA : x.owner = A
    · simp [hA]
      exact Or.inr hAB
    · simp [hA]
  · rw [fileUpdateEntryH_state, loadEntries_saveEntries_ne _ _ _ _ hAB]
  · rw [fileDeleteEntryH_state, loadEntries_saveEntries_ne _ _ _ _ hAB]
  · intro hB e he
    simp only [fileListEntriesH, entriesOf] at he
    rw [hB e he]
    exact fun hA => hAB hA.symm

/-- C1 witness: the amended theorem applied to concrete states holding one
row owned by alice and one vault entry owned by bob. -/
theorem c1_witness :
    relRowsOf (relUpdateEntryH ⟨[], [wRow], [], 3⟩ "bob" 2 { note := some "n" } 9).2 "alice"
      = relRowsOf ⟨[], [wRow], [], 3⟩ "alice" ∧
    loadEntries (fileDeleteEntryH ⟨[], [("alice", [wRow]), ("bob", [wRowB])], [], 5⟩
        "bob" 4).2 "alice"
      = loadEntries ⟨[], [("alice", [wRow]), ("bob", [wRowB])], [], 5⟩ "alice" ∧
    (∀ e ∈ entriesOf (fileListEntriesH ⟨[], [("alice", [wRow]), ("bob", [wRowB])], [], 5⟩
        "bob").1, e.owner ≠ "alice") :=
  ⟨(c1_isolation_amended "alice" "bob" (by decide) ⟨[], [wRow], [], 3⟩
      FileState.init 2 { note := some "n" } 9).2.1,
   (c1_isolation_amended "alice" "bob" (by decide) RelState.init
      ⟨[], [("alice", [wRow]), ("bob", [wRowB])], [], 5⟩ 4 { note := some "n" } 9).2.2.2.2.1,
   (c1_isolation_amended "alice" "bob" (by decide) RelState.init
      ⟨[], [("alice", [wRow]), ("bob", [wRowB])], [], 5⟩ 4 { note := some "n" } 9).2.2.2.2.2
     (by decide)⟩

/-! ## C2: backend equivalence -/

end PM
